import Mathlib

/-!
# corsgate: the origin-validation gate

A shallow embedding of `corsgate.go` (`Options`, `CORSGate`, `New`, `Handler`,
`Validate`) and the properties of its Allow/Deny decision.

Modelling conventions.

* A Go `string` holding header text is a Lean `String`; the empty string is what
  `Header.Get` returns for an absent header.
* A Go `error` is an `Option String`: `none` is `nil` (the request is allowed),
  `some msg` is the error built by `fmt.Errorf` (the request is denied, `msg` is
  the reason).
* The Go standard library is outside the repository.  `strings.ToLower` is
  embedded as the rune-wise map of `unicode.ToLower`, whose ASCII branch is
  written out and whose table for the other runes is a parameter;
  `url.Parse` is a parameter.  Both live in `Lib`, and every general theorem holds
  for every `Lib`.
-/

namespace Corsgate

/-! ## Standard-library view -/

/-- The part of `*url.URL` that `Validate` reads: the `Host` field. -/
structure URL where
  Host : String
deriving DecidableEq, Repr

/-- The standard-library functions the gate calls and that are not written out here:
`unicodeLower` is the case table of `unicode.ToLower` for runes above `MaxASCII`, and
`urlParse` is `url.Parse`, with `none` for a non-nil parse error. -/
structure Lib where
  unicodeLower : Char → Char
  urlParse : String → Option URL

/-- Go `unicode.ToLower`: an ASCII rune in `A..Z` is shifted by `a - A`, any other
ASCII rune is returned as is, the remaining runes go through the case table. -/
def lowerRune (L : Lib) (r : Char) : Char :=
  if r.toNat ≤ 127 then
    if 65 ≤ r.toNat ∧ r.toNat ≤ 90 then Char.ofNat (r.toNat + 32) else r
  else L.unicodeLower r

/-- Go `strings.ToLower`: every rune of the string mapped by `unicode.ToLower`. -/
def ToLower (L : Lib) (s : String) : String :=
  ⟨s.data.map (lowerRune L)⟩

/-- Go `strings.Replace(s, " ", "", -1)`: every space character removed. -/
def removeSpaces (s : String) : String :=
  ⟨s.data.filter (fun ch => ch ≠ ' ')⟩

/-- Go `http.MethodGet`. -/
def MethodGet : String := "GET"

/-- Go `http.MethodHead`. -/
def MethodHead : String := "HEAD"

/-- Go `http.StatusForbidden`. -/
def StatusForbidden : Nat := 403

/-- Go `http.Header`, seen through `Get`: the first value stored under a key, or the
empty string when there is none. -/
structure Header where
  Get : String → String

/-- The part of `*http.Request` the gate reads. -/
structure Request where
  Method : String
  Header : Header

/-- The part of `http.ResponseWriter` that `Validate` reads: the header map returned by
`w.Header()`, holding what earlier middleware has already set. -/
structure ResponseWriter where
  Header : Header

/-! ## Configuration -/

/-- Options that specify behaviour.  `H` is the type of handler values; `Failure` is
`none` when the Go field is `nil`. -/
structure Options (H : Type) where
  Origin : List String
  AllowSafe : Bool
  Strict : Bool
  Failure : Option H
  Credentials : Bool

/-- CORSGate struct to hold options. -/
structure CORSGate (H : Type) where
  options : Options H

/-- New returns a new instance of CORSGate. -/
def New {H : Type} (opts : Options H) : CORSGate H :=
  { options := opts }

/-! ## Validate -/

/-- The loop of `Validate` over `c.options.Origin` ("Always allow same-origin
requests"): `true` when some iteration returns `nil`, `false` when the loop runs to
its end. -/
def originLoop : List String → String → Bool
  | [], _ => false
  | host :: rest, origin =>
    if host = origin then true
    else if host = "*" then true
    else originLoop rest origin

/-- The part of `Validate` that follows the computation of `origin`: the allow-list
loop, the check of an `access-control-allow-origin` header that is already set, and the
final error. -/
def validateOrigin {H : Type} (L : Lib) (c : CORSGate H) (w : ResponseWriter)
    (origin : String) : Option String :=
  if originLoop c.options.Origin origin then none
  else
    let curHeader := w.Header.Get "access-control-allow-origin"
    if curHeader ≠ "" then
      let curHeader := ToLower L (removeSpaces curHeader)
      if curHeader = "*" ∨ origin = curHeader then none
      else some (origin ++ " is not an allowed origin")
    else some (origin ++ " is not an allowed origin")

/-- Validate - Validates CORS preferences for an incoming request. -/
def Validate {H : Type} (L : Lib) (c : CORSGate H) (w : ResponseWriter) (r : Request) :
    Option String :=
  let origin := ToLower L (r.Header.Get "origin")
  if origin = "" then
    let ref := ToLower L (r.Header.Get "referer")
    if ref ≠ "" then
      match L.urlParse ref with
      | none => some "tried to fallback to referer header but could not parse it"
      | some url => validateOrigin L c w url.Host
    else
      if c.options.Strict ||
          (!c.options.AllowSafe || (r.Method != MethodGet && r.Method != MethodHead)) then
        some "CORS validation failed. Supplied origin isn't safe and strict mode is enabled."
      else none
  else validateOrigin L c w origin

/-- The value that the variable `origin` of `Validate` holds when control reaches the
allow-list loop: the lowercased Origin header when that is not empty, otherwise the `Host`
of the URL parsed from the lowercased Referer header; `none` when `Validate` returns
before the loop (Referer parse error, or neither header). -/
def effectiveOrigin (L : Lib) (r : Request) : Option String :=
  let origin := ToLower L (r.Header.Get "origin")
  if origin = "" then
    let ref := ToLower L (r.Header.Get "referer")
    if ref ≠ "" then
      match L.urlParse ref with
      | none => none
      | some url => some url.Host
    else none
  else some origin

/-! ## Handler -/

/-- One call made by the handler that `Handler` builds, on one of its collaborators:
the failure callback, the protected handler, or a method of the response writer
(`WriteHeader`, `Write`, or a `Set` on the map returned by `Header()`). -/
inductive Effect (H : Type) where
  | failure (f : H) (w : ResponseWriter) (r : Request)
  | serveHTTP (h : H) (w : ResponseWriter) (r : Request)
  | writeHeader (w : ResponseWriter) (statusCode : Nat)
  | write (w : ResponseWriter) (body : String)
  | headerSet (w : ResponseWriter) (key value : String)

/-- The function literal that `Handler` wraps in `http.HandlerFunc`, given as the list of
calls it makes, in order, when it serves `r` on `w`. -/
def handlerFunc {H : Type} (L : Lib) (c : CORSGate H) (h : H) (w : ResponseWriter)
    (r : Request) : List (Effect H) :=
  let err := Validate L c w r
  if err ≠ none then
    match c.options.Failure with
    | some f => [Effect.failure f w r]
    | none => [Effect.writeHeader w StatusForbidden]
  else [Effect.serveHTTP h w r]

/-- Handler implements http.HandlerFunc so this lib can be implemented witht the native
net/http lib.  The result is `none` where the Go code returns `nil`. -/
def Handler {H : Type} (L : Lib) (c : CORSGate H) (h : H) :
    Option (ResponseWriter → Request → List (Effect H)) :=
  if c.options.Origin.length < 1 then none
  else some (handlerFunc L c h)

/-! ## The algorithm as the specification words it -/

/-- The result of the specification's `validate`: `Allow`, or `Deny` with a reason. -/
inductive Outcome where
  | Allow
  | Deny (reason : String)
deriving DecidableEq, Repr

/-- Step 3 of the specification: some allow-list entry equals the effective origin value
exactly, or some entry is the wildcard. -/
def specAllowListed (allowed_origins : List String) (effective : String) : Bool :=
  allowed_origins.any (fun entry => decide (entry = effective) || decide (entry = "*"))

/-- Step 4 of the specification, as worded: the existing header with its whitespace
stripped, lowercased, equals the wildcard or the effective origin value. -/
def specDeference (L : Lib) (existing_cors_header effective : String) : Bool :=
  let stripped : String := ⟨existing_cors_header.data.filter (fun ch => !ch.isWhitespace)⟩
  let normalised := ToLower L stripped
  decide (normalised = "*") || decide (normalised = effective)

/-- Step 4 as amended: it applies only to a non-empty existing header, and only the space
character is stripped from it. -/
def guardedDeference (L : Lib) (existing_cors_header effective : String) : Bool :=
  if existing_cors_header = "" then false
  else
    let stripped : String := ⟨existing_cors_header.data.filter (fun ch => ch ≠ ' ')⟩
    let normalised := ToLower L stripped
    decide (normalised = "*") || decide (normalised = effective)

/-- The specification's ordered algorithm (section 4.1), first match wins, with step 4
passed in as `deference`. -/
def fiveStep (L : Lib) (deference : String → String → Bool)
    (method origin_header referer_header existing_cors_header : String)
    (allowed_origins : List String) (allow_safe strict : Bool) : Outcome :=
  let steps3to5 (effective : String) : Outcome :=
    if specAllowListed allowed_origins effective then Outcome.Allow
    else if deference existing_cors_header effective then Outcome.Allow
    else Outcome.Deny (effective ++ " is not an allowed origin")
  let origin := ToLower L origin_header
  if origin ≠ "" then steps3to5 origin
  else
    let referer := ToLower L referer_header
    if referer ≠ "" then
      match L.urlParse referer with
      | none => Outcome.Deny "referer header unparsable"
      | some url => steps3to5 url.Host
    else if allow_safe = true ∧ strict = false ∧ (method = "GET" ∨ method = "HEAD") then
      Outcome.Allow
    else Outcome.Deny "no safe origin signal"

/-- The specification's `validate`, steps 1 to 5 as worded. -/
def specValidate (L : Lib) (method origin_header referer_header existing_cors_header : String)
    (allowed_origins : List String) (allow_safe strict : Bool) : Outcome :=
  fiveStep L (specDeference L) method origin_header referer_header existing_cors_header
    allowed_origins allow_safe strict

/-- The specification's `validate` with step 4 amended as in `guardedDeference`. -/
def guardedValidate (L : Lib) (method origin_header referer_header existing_cors_header : String)
    (allowed_origins : List String) (allow_safe strict : Bool) : Outcome :=
  fiveStep L (guardedDeference L) method origin_header referer_header existing_cors_header
    allowed_origins allow_safe strict

/-! ## Concrete inputs

A standard library to run the gate on concrete ASCII requests, and the requests and
recorders of the test file. -/

/-- Go `getScheme`, scanning the bytes after the `seen` ones: `none` is the error
"missing protocol scheme", otherwise the scheme and what follows its colon. -/
def getSchemeFrom (rawURL : List Char) : List Char → List Char → Option (List Char × List Char)
  | _, [] => some ([], rawURL)
  | seen, ch :: rest =>
    if ch.isAlpha then getSchemeFrom rawURL (seen ++ [ch]) rest
    else if ch.isDigit ∨ ch = '+' ∨ ch = '-' ∨ ch = '.' then
      if seen = [] then some ([], rawURL) else getSchemeFrom rawURL (seen ++ [ch]) rest
    else if ch = ':' then
      if seen = [] then none else some (seen, rest)
    else some ([], rawURL)

/-- The authorities this model reads: a name of letters, digits, `.`, `-`, `_`, `~`, then
nothing or a colon and digits.  Go `parseAuthority` returns such an authority whole as the
host; any other authority is reported as an error here. -/
def parseAuthority (authority : List Char) : Option (List Char) :=
  let isNameChar : Char → Bool := fun ch =>
    ch.isAlphanum || ch = '.' || ch = '-' || ch = '_' || ch = '~'
  match authority.dropWhile isNameChar with
  | [] => some authority
  | ch :: digits => if ch = ':' ∧ digits.all Char.isDigit = true then some authority else none

/-- A model of Go `url.Parse` for URLs without percent escapes, following its steps: the
fragment is cut off, control bytes are refused, the scheme is split off by `getScheme`,
the query is cut off, a rootless remainder is opaque under a scheme and may not have a
colon in its first segment otherwise, and a remainder starting with `//` gives the
authority up to the next `/`.  A string with a percent sign is reported as an error. -/
def parseURL (rawURL : String) : Option URL :=
  let u := rawURL.data.takeWhile (fun ch => ch ≠ '#')
  if rawURL.data.any (fun ch => ch = '%') then none
  else if u.any (fun ch => ch.toNat < 32 ∨ ch.toNat = 127) then none
  else
    match getSchemeFrom u [] u with
    | none => none
    | some (scheme, afterScheme) =>
      let rest := afterScheme.takeWhile (fun ch => ch ≠ '?')
      if rest.head? ≠ some '/' then
        if scheme ≠ [] then some ⟨""⟩
        else if (rest.takeWhile (fun ch => ch ≠ '/')).any (fun ch => ch = ':') then none
        else some ⟨""⟩
      else if (scheme ≠ [] ∨ rest.take 3 ≠ ['/', '/', '/']) ∧ rest.take 2 = ['/', '/'] then
        match parseAuthority ((rest.drop 2).takeWhile (fun ch => ch ≠ '/')) with
        | none => none
        | some host => some ⟨⟨host⟩⟩
      else some ⟨""⟩

/-- A standard library for ASCII text: runes above `MaxASCII` are left as they are, and
URLs are parsed by `parseURL`. -/
def asciiLib : Lib :=
  { unicodeLower := fun r => r, urlParse := parseURL }

/-- The standard library of `asciiLib` with one entry of the case table of
`unicode.ToLower` added: `unicode.CaseRanges` holds `{0x212A, 0x212A, d{0, -8383, 0}}`,
which lowers U+212A KELVIN SIGN to U+006B, the ASCII letter `k`. -/
def kelvinLib : Lib :=
  { unicodeLower := fun r => if r = Char.ofNat 0x212A then 'k' else r, urlParse := parseURL }

/-- The request of the tests: `http.NewRequest(method, ...)` with `Origin` and `Referer`
headers added; the empty string stands for a header that is not added. -/
def newRequest (method origin referer : String) : Request :=
  { Method := method,
    Header := { Get := fun key =>
      if key = "origin" then origin else if key = "referer" then referer else "" } }

/-- A response writer on which `Access-Control-Allow-Origin` has been set to `acao` by
earlier middleware; the empty string stands for a header that is not set. -/
def newRecorder (acao : String) : ResponseWriter :=
  { Header := { Get := fun key => if key = "access-control-allow-origin" then acao else "" } }

/-- The gate of the tests: `New(Options ...)` with no failure callback. -/
def newGate (origins : List String) (allowSafe strict : Bool) : CORSGate String :=
  New { Origin := origins, AllowSafe := allowSafe, Strict := strict, Failure := none,
        Credentials := false }

/-- The gate of `TestFailureShouldNotBeInvokedForSameOriginRequests`: `New(Options ...)`
with a failure callback, named `failure`. -/
def newGateWithFailure (origins : List String) (failure : String) : CORSGate String :=
  New { Origin := origins, AllowSafe := false, Strict := false, Failure := some failure,
        Credentials := false }

/-! ## Lemmas on the building blocks -/

theorem ToLower_eq_empty_iff (L : Lib) (s : String) : ToLower L s = "" ↔ s = "" := by
  simp [ToLower, String.ext_iff]

theorem ToLower_star (L : Lib) : ToLower L "*" = "*" := by
  simp [ToLower, lowerRune]

theorem removeSpaces_star : removeSpaces "*" = "*" := by
  decide

theorem originLoop_iff (origins : List String) (origin : String) :
    originLoop origins origin = true ↔ origin ∈ origins ∨ "*" ∈ origins := by
  induction origins with
  | nil => simp [originLoop]
  | cons host rest ih =>
    unfold originLoop
    by_cases h1 : host = origin
    · simp [h1]
    · by_cases h2 : host = "*"
      · simp [h2]
      · have h1' : ¬ origin = host := fun h => h1 h.symm
        have h2' : ¬ "*" = host := fun h => h2 h.symm
        simp [h1, h2, h1', h2', ih]

theorem originLoop_eq_specAllowListed (origins : List String) (origin : String) :
    originLoop origins origin = specAllowListed origins origin := by
  induction origins with
  | nil => simp [originLoop, specAllowListed]
  | cons host rest ih =>
    unfold originLoop
    unfold specAllowListed at ih ⊢
    by_cases h1 : host = origin
    · simp [h1]
    · by_cases h2 : host = "*"
      · simp [h2]
      · simp [h1, h2, ih]

theorem validateOrigin_eq_none_iff {H : Type} (L : Lib) (c : CORSGate H) (w : ResponseWriter)
    (origin : String) :
    validateOrigin L c w origin = none ↔
      originLoop c.options.Origin origin = true ∨
        (w.Header.Get "access-control-allow-origin" ≠ "" ∧
          (ToLower L (removeSpaces (w.Header.Get "access-control-allow-origin")) = "*" ∨
            origin = ToLower L (removeSpaces (w.Header.Get "access-control-allow-origin")))) := by
  unfold validateOrigin
  by_cases h1 : originLoop c.options.Origin origin = true
  · simp [h1]
  · by_cases h2 : w.Header.Get "access-control-allow-origin" = ""
    · simp [h1, h2]
    · by_cases h3 : ToLower L (removeSpaces (w.Header.Get "access-control-allow-origin")) = "*" ∨
          origin = ToLower L (removeSpaces (w.Header.Get "access-control-allow-origin"))
      · simp [h1, h2, h3]
      · simp [h1, h2, h3]

theorem Validate_of_origin {H : Type} (L : Lib) (c : CORSGate H) (w : ResponseWriter)
    (r : Request) (h : r.Header.Get "origin" ≠ "") :
    Validate L c w r = validateOrigin L c w (ToLower L (r.Header.Get "origin")) := by
  have h1 : ¬ ToLower L (r.Header.Get "origin") = "" := by
    rw [ToLower_eq_empty_iff]; exact h
  simp [Validate, h1]

theorem Validate_of_referer {H : Type} (L : Lib) (c : CORSGate H) (w : ResponseWriter)
    (r : Request) (ho : r.Header.Get "origin" = "") (hr : r.Header.Get "referer" ≠ "") :
    Validate L c w r =
      match L.urlParse (ToLower L (r.Header.Get "referer")) with
      | none => some "tried to fallback to referer header but could not parse it"
      | some url => validateOrigin L c w url.Host := by
  have h1 : ToLower L (r.Header.Get "origin") = "" := by
    rw [ToLower_eq_empty_iff]; exact ho
  have h2 : ¬ ToLower L (r.Header.Get "referer") = "" := by
    rw [ToLower_eq_empty_iff]; exact hr
  simp [Validate, h1, h2]

theorem Validate_of_no_signal {H : Type} (L : Lib) (c : CORSGate H) (w : ResponseWriter)
    (r : Request) (ho : r.Header.Get "origin" = "") (hr : r.Header.Get "referer" = "") :
    Validate L c w r =
      if c.options.Strict ||
          (!c.options.AllowSafe || (r.Method != MethodGet && r.Method != MethodHead)) then
        some "CORS validation failed. Supplied origin isn't safe and strict mode is enabled."
      else none := by
  have h1 : ToLower L (r.Header.Get "origin") = "" := by
    rw [ToLower_eq_empty_iff]; exact ho
  have h2 : ToLower L (r.Header.Get "referer") = "" := by
    rw [ToLower_eq_empty_iff]; exact hr
  simp [Validate, h1, h2]

/-! ## The decision function and the specification's algorithm -/

theorem fiveStep_allow_iff (L : Lib) (deference : String → String → Bool)
    (method origin_header referer_header existing : String) (allowed : List String)
    (allow_safe strict : Bool) :
    fiveStep L deference method origin_header referer_header existing allowed allow_safe
        strict = Outcome.Allow ↔
      if ToLower L origin_header ≠ "" then
        (specAllowListed allowed (ToLower L origin_header) = true ∨
          deference existing (ToLower L origin_header) = true)
      else if ToLower L referer_header ≠ "" then
        ∃ url, L.urlParse (ToLower L referer_header) = some url ∧
          (specAllowListed allowed url.Host = true ∨ deference existing url.Host = true)
      else allow_safe = true ∧ strict = false ∧ (method = "GET" ∨ method = "HEAD") := by
  unfold fiveStep
  by_cases h1 : ToLower L origin_header = ""
  · by_cases h2 : ToLower L referer_header = ""
    · simp only [h1, h2, ne_eq, not_true_eq_false, if_false]
      split <;> simp_all
    · simp only [h1, h2, ne_eq, not_true_eq_false, not_false_eq_true, if_false, if_true]
      cases hp : L.urlParse (ToLower L referer_header) with
      | none => simp
      | some url =>
        simp only [Option.some.injEq, exists_eq_left']
        by_cases h3 : specAllowListed allowed url.Host = true
        · simp [h3]
        · by_cases h4 : deference existing url.Host = true
          · simp [h3, h4]
          · simp [h3, h4]
  · simp only [h1, ne_eq, not_false_eq_true, if_true]
    by_cases h3 : specAllowListed allowed (ToLower L origin_header) = true
    · simp [h3]
    · by_cases h4 : deference existing (ToLower L origin_header) = true
      · simp [h3, h4]
      · simp [h3, h4]

theorem Validate_eq_none_iff {H : Type} (L : Lib) (c : CORSGate H) (w : ResponseWriter)
    (r : Request) :
    Validate L c w r = none ↔
      if ToLower L (r.Header.Get "origin") ≠ "" then
        validateOrigin L c w (ToLower L (r.Header.Get "origin")) = none
      else if ToLower L (r.Header.Get "referer") ≠ "" then
        ∃ url, L.urlParse (ToLower L (r.Header.Get "referer")) = some url ∧
          validateOrigin L c w url.Host = none
      else c.options.AllowSafe = true ∧ c.options.Strict = false ∧
        (r.Method = "GET" ∨ r.Method = "HEAD") := by
  unfold Validate
  by_cases h1 : ToLower L (r.Header.Get "origin") = ""
  · by_cases h2 : ToLower L (r.Header.Get "referer") = ""
    · simp only [h1, h2, ne_eq, not_true_eq_false, if_false, if_true]
      cases c.options.Strict <;> cases c.options.AllowSafe <;>
        by_cases hg : r.Method = "GET" <;> by_cases hh : r.Method = "HEAD" <;>
        simp [MethodGet, MethodHead, hg, hh]
    · simp only [h1, h2, ne_eq, not_true_eq_false, not_false_eq_true, if_false, if_true]
      cases hp : L.urlParse (ToLower L (r.Header.Get "referer")) with
      | none => simp
      | some url => simp
  · simp only [h1, ne_eq, not_false_eq_true, if_true, if_false]

theorem guardedDeference_iff (L : Lib) (existing effective : String) :
    guardedDeference L existing effective = true ↔
      existing ≠ "" ∧
        (ToLower L (removeSpaces existing) = "*" ∨ effective = ToLower L (removeSpaces existing)) := by
  unfold guardedDeference removeSpaces
  by_cases h : existing = ""
  · simp [h]
  · simp only [h, if_false, Bool.or_eq_true, decide_eq_true_eq, ne_eq, not_false_eq_true,
      true_and]
    constructor
    · rintro (h1 | h1)
      · exact Or.inl h1
      · exact Or.inr h1.symm
    · rintro (h1 | h1)
      · exact Or.inl h1
      · exact Or.inr h1.symm

/-! ## C1: Validate against the specification's five steps -/

/-- C1, as stated, fails: the Allow/Deny decision of `Validate` differs from the
specification's five-step algorithm on two requests.  A request with no Origin whose
Referer `/mypage.html` has an empty host, and no existing header: step 4 as worded
compares the empty normalised header with the empty effective origin and allows, while
`Validate` skips an empty existing header and denies.  A request with Origin
`google.com` and an existing header made of a tab and `*`: stripping whitespace leaves
the wildcard, while `Validate` removes only space characters and denies. -/
theorem validate_differs_from_specValidate :
    (Validate asciiLib (newGate ["localhost"] false false) (newRecorder "")
          (newRequest "GET" "" "/mypage.html") = some " is not an allowed origin" ∧
        specValidate asciiLib "GET" "" "/mypage.html" "" ["localhost"] false false
          = Outcome.Allow) ∧
      (Validate asciiLib (newGate ["localhost"] false false) (newRecorder "\t*")
          (newRequest "GET" "google.com" "") = some "google.com is not an allowed origin" ∧
        specValidate asciiLib "GET" "google.com" "" "\t*" ["localhost"] false false
          = Outcome.Allow) := by
  decide

/-- C1, amended: for every method, Origin header, Referer header, existing
Access-Control-Allow-Origin value, allow-list, allow_safe and strict, `Validate` allows
exactly when the five-step algorithm allows in which step 4 applies only to a non-empty
existing header and strips only space characters from it; URL parsing and the case table
are the same `Lib` on both sides. -/
theorem validate_allows_iff_guardedValidate {H : Type} (L : Lib) (c : CORSGate H)
    (w : ResponseWriter) (r : Request) :
    Validate L c w r = none ↔
      guardedValidate L r.Method (r.Header.Get "origin") (r.Header.Get "referer")
        (w.Header.Get "access-control-allow-origin") c.options.Origin c.options.AllowSafe
        c.options.Strict = Outcome.Allow := by
  unfold guardedValidate
  rw [Validate_eq_none_iff, fiveStep_allow_iff]
  simp only [validateOrigin_eq_none_iff, guardedDeference_iff, originLoop_eq_specAllowListed]

/-! ## C2: no origin signal -/

/-- C2: for every request with an empty Origin header and an empty Referer header, and
every allow-list, `Validate` allows if and only if allow_safe is true, strict is false and
the method is GET or HEAD; and with strict true it denies, whatever the method and
allow_safe. -/
theorem validate_no_signal {H : Type} (L : Lib) (c : CORSGate H) (w : ResponseWriter)
    (r : Request) (ho : r.Header.Get "origin" = "") (hr : r.Header.Get "referer" = "") :
    (Validate L c w r = none ↔
        c.options.AllowSafe = true ∧ c.options.Strict = false ∧
          (r.Method = "GET" ∨ r.Method = "HEAD")) ∧
      (c.options.Strict = true → Validate L c w r ≠ none) := by
  have h1 : ToLower L (r.Header.Get "origin") = "" := (ToLower_eq_empty_iff L _).2 ho
  have h2 : ToLower L (r.Header.Get "referer") = "" := (ToLower_eq_empty_iff L _).2 hr
  have key := Validate_eq_none_iff L c w r
  simp only [h1, h2, ne_eq, not_true_eq_false, if_false] at key
  refine ⟨key, ?_⟩
  intro hs hv
  have := (key.1 hv).2.1
  rw [hs] at this
  exact Bool.noConfusion this

/-- C2 at the request of `TestAllowUnspecifiedSafeRequests`: a GET with neither header,
allow_safe on and strict off, is allowed. -/
theorem validate_no_signal_witness :
    (newRequest "GET" "" "").Header.Get "origin" = "" ∧
      (newRequest "GET" "" "").Header.Get "referer" = "" ∧
      Validate asciiLib (newGate ["localhost"] true false) (newRecorder "")
        (newRequest "GET" "" "") = none :=
  ⟨rfl, rfl,
    (validate_no_signal asciiLib (newGate ["localhost"] true false) (newRecorder "")
      (newRequest "GET" "" "") rfl rfl).1.2 ⟨rfl, rfl, Or.inl rfl⟩⟩

/-! ## C3: an Origin on the allow-list -/

/-- C3, as stated, fails: the Origin `localhost` equals the allow-list entry `Localhost`
when letter case is ignored, and `Validate` denies the request, because only the incoming
value is lowercased and the entry is compared as configured. -/
theorem validate_denies_case_insensitive_match :
    (∃ entry ∈ (newGate ["Localhost"] false false).options.Origin,
        ToLower asciiLib entry = ToLower asciiLib "localhost") ∧
      (newRequest "POST" "localhost" "").Header.Get "origin" ≠ "" ∧
      Validate asciiLib (newGate ["Localhost"] false false) (newRecorder "")
        (newRequest "POST" "localhost" "") = some "localhost is not an allowed origin" := by
  refine ⟨⟨"Localhost", by decide, by decide⟩, by decide, by decide⟩

/-- C3, amended: for every request whose non-empty Origin header, once lowercased, equals
some allow-list entry exactly (the entry taken as configured), `Validate` allows, for
every method, allow_safe, strict, Referer and existing response header. -/
theorem validate_allows_listed_origin {H : Type} (L : Lib) (c : CORSGate H)
    (w : ResponseWriter) (r : Request) (ho : r.Header.Get "origin" ≠ "")
    (hmem : ToLower L (r.Header.Get "origin") ∈ c.options.Origin) :
    Validate L c w r = none := by
  rw [Validate_of_origin L c w r ho, validateOrigin_eq_none_iff]
  exact Or.inl ((originLoop_iff _ _).2 (Or.inl hmem))

/-- C3 amended, at the request of `TestAllowSameOriginPOSTRequest` with the Origin written
in capitals: a POST with Origin `LOCALHOST` passes the allow-list `localhost`. -/
theorem validate_allows_listed_origin_witness :
    (newRequest "POST" "LOCALHOST" "").Header.Get "origin" ≠ "" ∧
      ToLower asciiLib ((newRequest "POST" "LOCALHOST" "").Header.Get "origin") ∈
        (newGate ["localhost"] false false).options.Origin ∧
      Validate asciiLib (newGate ["localhost"] false false) (newRecorder "")
        (newRequest "POST" "LOCALHOST" "") = none :=
  ⟨by decide, by decide,
    validate_allows_listed_origin asciiLib (newGate ["localhost"] false false)
      (newRecorder "") (newRequest "POST" "LOCALHOST" "") (by decide) (by decide)⟩

/-! ## C4: the wildcard entry -/

/-- C4, as stated, fails: with the allow-list `*`, `Validate` denies a POST that carries
neither Origin nor Referer, and denies a GET with no Origin whose Referer `://x` does not
parse; both returns come before the allow-list is looked at. -/
theorem validate_denies_under_wildcard :
    "*" ∈ (newGate ["*"] true false).options.Origin ∧
      Validate asciiLib (newGate ["*"] true false) (newRecorder "")
        (newRequest "POST" "" "") =
          some "CORS validation failed. Supplied origin isn't safe and strict mode is enabled." ∧
      Validate asciiLib (newGate ["*"] true false) (newRecorder "")
        (newRequest "GET" "" "://x") =
          some "tried to fallback to referer header but could not parse it" := by
  decide

/-- C4, amended: for every configuration whose allow-list contains the wildcard entry
at any position, `Validate` allows every request that has a non-empty Origin header,
whatever its value, and every request that has a non-empty Referer header whose lowercased
value parses as a URL. -/
theorem validate_allows_under_wildcard {H : Type} (L : Lib) (c : CORSGate H)
    (w : ResponseWriter) (r : Request) (hstar : "*" ∈ c.options.Origin)
    (hsig : r.Header.Get "origin" ≠ "" ∨
      (r.Header.Get "referer" ≠ "" ∧
        ∃ url, L.urlParse (ToLower L (r.Header.Get "referer")) = some url)) :
    Validate L c w r = none := by
  have hloop : ∀ origin, validateOrigin L c w origin = none := fun origin =>
    (validateOrigin_eq_none_iff L c w origin).2
      (Or.inl ((originLoop_iff _ _).2 (Or.inr hstar)))
  by_cases ho : r.Header.Get "origin" = ""
  · rcases hsig with h | ⟨hr, url, hp⟩
    · exact absurd ho h
    · rw [Validate_of_referer L c w r ho hr, hp]
      exact hloop url.Host
  · rw [Validate_of_origin L c w r ho]
    exact hloop _

/-- C4 amended, at the request of `TestAllowesWildcardOrigins` with the wildcard placed
last: Origin `google.com` passes the allow-list `localhost`, `*`. -/
theorem validate_allows_under_wildcard_witness :
    "*" ∈ (newGate ["localhost", "*"] false false).options.Origin ∧
      (newRequest "GET" "google.com" "").Header.Get "origin" ≠ "" ∧
      Validate asciiLib (newGate ["localhost", "*"] false false) (newRecorder "")
        (newRequest "GET" "google.com" "") = none :=
  ⟨by decide, by decide,
    validate_allows_under_wildcard asciiLib (newGate ["localhost", "*"] false false)
      (newRecorder "") (newRequest "GET" "google.com" "") (by decide) (Or.inl (by decide))⟩

/-! ## C5: Referer never overrides a present Origin -/

/-- C5: for every request with a non-empty Origin header, `Validate` returns the same
result, the same `nil` or the same error with the same reason, whatever the Referer
header is: two requests with the same method and the same headers apart from Referer get
the same result. -/
theorem validate_ignores_referer_when_origin {H : Type} (L : Lib) (c : CORSGate H)
    (w : ResponseWriter) (r1 r2 : Request)
    (hh : ∀ key, key ≠ "referer" → r1.Header.Get key = r2.Header.Get key)
    (ho : r1.Header.Get "origin" ≠ "") :
    Validate L c w r1 = Validate L c w r2 := by
  have hkey : r1.Header.Get "origin" = r2.Header.Get "origin" := hh "origin" (by decide)
  have ho2 : r2.Header.Get "origin" ≠ "" := hkey ▸ ho
  rw [Validate_of_origin L c w r1 ho, Validate_of_origin L c w r2 ho2, hkey]

/-- C5 at the request of `TestRefererShouldNotOverrideHost`: Origin `google.com` is denied
with the same reason with the Referer `http://localhost/mypage.html` and with an
unparseable Referer. -/
theorem validate_ignores_referer_when_origin_witness :
    (newRequest "GET" "google.com" "http://localhost/mypage.html").Header.Get "origin" ≠ "" ∧
      Validate asciiLib (newGate ["localhost"] false false) (newRecorder "")
          (newRequest "GET" "google.com" "http://localhost/mypage.html") =
        Validate asciiLib (newGate ["localhost"] false false) (newRecorder "")
          (newRequest "GET" "google.com" "://x") :=
  ⟨by decide,
    validate_ignores_referer_when_origin asciiLib (newGate ["localhost"] false false)
      (newRecorder "") (newRequest "GET" "google.com" "http://localhost/mypage.html")
      (newRequest "GET" "google.com" "://x")
      (fun key hk => by simp [newRequest, hk]) (by decide)⟩

/-! ## C6: a present, disallowed Origin -/

/-- C6: for every request with a non-empty Origin header whose lowercased value equals no
allow-list entry, where the allow-list has no wildcard entry and no
Access-Control-Allow-Origin response header is set, `Validate` denies with the reason made
of the lowercased origin followed by " is not an allowed origin", for every method and
every allow_safe and strict. -/
theorem validate_denies_unlisted_origin {H : Type} (L : Lib) (c : CORSGate H)
    (w : ResponseWriter) (r : Request) (ho : r.Header.Get "origin" ≠ "")
    (hmem : ToLower L (r.Header.Get "origin") ∉ c.options.Origin)
    (hstar : "*" ∉ c.options.Origin)
    (hcur : w.Header.Get "access-control-allow-origin" = "") :
    Validate L c w r =
      some (ToLower L (r.Header.Get "origin") ++ " is not an allowed origin") := by
  have hloop : ¬ originLoop c.options.Origin (ToLower L (r.Header.Get "origin")) = true := by
    rw [originLoop_iff]
    rintro (h | h)
    · exact hmem h
    · exact hstar h
  rw [Validate_of_origin L c w r ho]
  simp [validateOrigin, hloop, hcur]

/-- C6 at the request of `TestRejectRequestsFromOtherOrigins`, with allow_safe on: a GET
with Origin `Google.com` is denied with the reason "google.com is not an allowed
origin". -/
theorem validate_denies_unlisted_origin_witness :
    (newRequest "GET" "Google.com" "").Header.Get "origin" ≠ "" ∧
      ToLower asciiLib ((newRequest "GET" "Google.com" "").Header.Get "origin") ∉
        (newGate ["localhost"] true false).options.Origin ∧
      "*" ∉ (newGate ["localhost"] true false).options.Origin ∧
      (newRecorder "").Header.Get "access-control-allow-origin" = "" ∧
      Validate asciiLib (newGate ["localhost"] true false) (newRecorder "")
        (newRequest "GET" "Google.com" "") = some "google.com is not an allowed origin" :=
  ⟨by decide, by decide, by decide, by decide,
    validate_denies_unlisted_origin asciiLib (newGate ["localhost"] true false)
      (newRecorder "") (newRequest "GET" "Google.com" "") (by decide) (by decide) (by decide)
      (by decide)⟩

/-! ## C7: the Referer fallback -/

/-- C7, as stated, fails: the Referer `http://LOCALHOST/mypage.html` parses as a URL whose
host component `LOCALHOST` equals the allow-list entry `LOCALHOST`, and `Validate` denies
the request, because it parses the lowercased Referer and compares the host `localhost`
with the entry as configured. -/
theorem validate_denies_listed_referer_host :
    (newRequest "GET" "" "http://LOCALHOST/mypage.html").Header.Get "origin" = "" ∧
      (newRequest "GET" "" "http://LOCALHOST/mypage.html").Header.Get "referer" ≠ "" ∧
      asciiLib.urlParse ((newRequest "GET" "" "http://LOCALHOST/mypage.html").Header.Get
        "referer") = some { Host := "LOCALHOST" } ∧
      "LOCALHOST" ∈ (newGate ["LOCALHOST"] false false).options.Origin ∧
      Validate asciiLib (newGate ["LOCALHOST"] false false) (newRecorder "")
        (newRequest "GET" "" "http://LOCALHOST/mypage.html") =
          some "localhost is not an allowed origin" := by
  decide

/-- C7, amended: for every request with an empty Origin header and a non-empty Referer
header whose lowercased value parses as a URL whose host component equals some allow-list
entry, `Validate` allows, for every method, allow_safe and strict. -/
theorem validate_allows_listed_referer_host {H : Type} (L : Lib) (c : CORSGate H)
    (w : ResponseWriter) (r : Request) (url : URL) (ho : r.Header.Get "origin" = "")
    (hr : r.Header.Get "referer" ≠ "")
    (hp : L.urlParse (ToLower L (r.Header.Get "referer")) = some url)
    (hmem : url.Host ∈ c.options.Origin) :
    Validate L c w r = none := by
  rw [Validate_of_referer L c w r ho hr, hp]
  exact (validateOrigin_eq_none_iff L c w url.Host).2
    (Or.inl ((originLoop_iff _ _).2 (Or.inl hmem)))

/-- C7 amended, at the request of `TestFallbackToRefererHeader` with the host written in
capitals: no Origin, Referer `http://LOCALHOST/mypage.html`, allow-list `localhost`. -/
theorem validate_allows_listed_referer_host_witness :
    (newRequest "GET" "" "http://LOCALHOST/mypage.html").Header.Get "origin" = "" ∧
      (newRequest "GET" "" "http://LOCALHOST/mypage.html").Header.Get "referer" ≠ "" ∧
      asciiLib.urlParse (ToLower asciiLib
        ((newRequest "GET" "" "http://LOCALHOST/mypage.html").Header.Get "referer")) =
          some { Host := "localhost" } ∧
      "localhost" ∈ (newGate ["localhost"] false false).options.Origin ∧
      Validate asciiLib (newGate ["localhost"] false false) (newRecorder "")
        (newRequest "GET" "" "http://LOCALHOST/mypage.html") = none :=
  ⟨by decide, by decide, by decide, by decide,
    validate_allows_listed_referer_host asciiLib (newGate ["localhost"] false false)
      (newRecorder "") (newRequest "GET" "" "http://LOCALHOST/mypage.html")
      { Host := "localhost" } (by decide) (by decide) (by decide) (by decide)⟩

/-! ## C8: an unparseable Referer -/

/-- C8, as stated, fails: the Referer made of U+212A KELVIN SIGN followed by
`ttp://localhost/` does not parse as a URL (no scheme is read, and the first path segment
holds a colon), yet `Validate` allows the POST that carries it: lowercasing turns the
header into `kttp://localhost/`, which parses with the allow-listed host `localhost`. -/
theorem validate_allows_unparseable_referer :
    (newRequest "POST" "" "\u212Attp://localhost/").Header.Get "origin" = "" ∧
      (newRequest "POST" "" "\u212Attp://localhost/").Header.Get "referer" ≠ "" ∧
      kelvinLib.urlParse ((newRequest "POST" "" "\u212Attp://localhost/").Header.Get
        "referer") = none ∧
      Validate kelvinLib (newGate ["localhost"] false false) (newRecorder "")
        (newRequest "POST" "" "\u212Attp://localhost/") = none := by
  decide

/-- C8, amended: for every request with an empty Origin header and a non-empty Referer
header whose lowercased value fails to parse as a URL, `Validate` denies, for every
allow-list, a wildcard one included, every existing Access-Control-Allow-Origin value, the
wildcard included, every method and every allow_safe and strict. -/
theorem validate_denies_unparseable_referer {H : Type} (L : Lib) (c : CORSGate H)
    (w : ResponseWriter) (r : Request) (ho : r.Header.Get "origin" = "")
    (hr : r.Header.Get "referer" ≠ "")
    (hp : L.urlParse (ToLower L (r.Header.Get "referer")) = none) :
    Validate L c w r ≠ none := by
  rw [Validate_of_referer L c w r ho hr, hp]
  exact Option.some_ne_none _

/-- C8 amended, on a safe GET with the Referer `://x`, a wildcard allow-list, a wildcard existing
header and allow_safe on: the request is denied. -/
theorem validate_denies_unparseable_referer_witness :
    (newRequest "GET" "" "://x").Header.Get "origin" = "" ∧
      (newRequest "GET" "" "://x").Header.Get "referer" ≠ "" ∧
      asciiLib.urlParse (ToLower asciiLib ((newRequest "GET" "" "://x").Header.Get "referer")) =
        none ∧
      Validate asciiLib (newGate ["*"] true false) (newRecorder "*")
        (newRequest "GET" "" "://x") ≠ none :=
  ⟨by decide, by decide, by decide,
    validate_denies_unparseable_referer asciiLib (newGate ["*"] true false) (newRecorder "*")
      (newRequest "GET" "" "://x") (by decide) (by decide) (by decide)⟩

/-! ## C9: a wildcard header set upstream -/

/-- C9: for every request with a non-empty Origin header, matching an allow-list entry or
not, if the response already carries an Access-Control-Allow-Origin header whose value is
the wildcard, `Validate` allows. -/
theorem validate_defers_to_wildcard_header {H : Type} (L : Lib) (c : CORSGate H)
    (w : ResponseWriter) (r : Request) (ho : r.Header.Get "origin" ≠ "")
    (hcur : w.Header.Get "access-control-allow-origin" = "*") :
    Validate L c w r = none := by
  rw [Validate_of_origin L c w r ho, validateOrigin_eq_none_iff]
  refine Or.inr ⟨?_, Or.inl ?_⟩
  · rw [hcur]; decide
  · rw [hcur, removeSpaces_star, ToLower_star]

/-- C9 on Origin `google.com`, allow-list `localhost`, and a wildcard header set
upstream. -/
theorem validate_defers_to_wildcard_header_witness :
    (newRequest "POST" "google.com" "").Header.Get "origin" ≠ "" ∧
      (newRecorder "*").Header.Get "access-control-allow-origin" = "*" ∧
      Validate asciiLib (newGate ["localhost"] false false) (newRecorder "*")
        (newRequest "POST" "google.com" "") = none :=
  ⟨by decide, by decide,
    validate_defers_to_wildcard_header asciiLib (newGate ["localhost"] false false)
      (newRecorder "*") (newRequest "POST" "google.com" "") (by decide) (by decide)⟩

/-! ## C10: the handler on Deny -/

/-- C10: with a non-empty allow-list, `Handler` builds a handler, and for every request on
which `Validate` denies, that handler makes no call to the protected handler; when a
failure callback is configured its only call is that callback, once, on the same writer
and request, and otherwise its only call is `WriteHeader(403)`: no body written, no header
set. -/
theorem handler_on_deny {H : Type} (L : Lib) (c : CORSGate H) (h : H) (w : ResponseWriter)
    (r : Request) (hne : c.options.Origin ≠ []) (hdeny : Validate L c w r ≠ none) :
    ∃ serve, Handler L c h = some serve ∧
      (∀ (h2 : H) (w2 : ResponseWriter) (r2 : Request),
        Effect.serveHTTP h2 w2 r2 ∉ serve w r) ∧
      (∀ f, c.options.Failure = some f → serve w r = [Effect.failure f w r]) ∧
      (c.options.Failure = none → serve w r = [Effect.writeHeader w StatusForbidden]) := by
  have hlen : ¬ c.options.Origin.length < 1 := by
    cases hO : c.options.Origin with
    | nil => exact absurd hO hne
    | cons a t => simp
  refine ⟨handlerFunc L c h, by simp only [Handler, hlen, if_false], ?_, ?_, ?_⟩
  · intro h2 w2 r2
    cases hf : c.options.Failure <;> simp [handlerFunc, hdeny, hf]
  · intro f hf
    simp [handlerFunc, hdeny, hf]
  · intro hf
    simp [handlerFunc, hdeny, hf]

/-- C10 at the request of `TestRejectRequestsWithoutOrigin`: no callback is configured, a
GET without Origin is denied, and the handler's only call is `WriteHeader(403)`. -/
theorem handler_on_deny_witness :
    (newGate ["localhost"] false false).options.Origin ≠ [] ∧
      Validate asciiLib (newGate ["localhost"] false false) (newRecorder "")
        (newRequest "GET" "" "") ≠ none ∧
      ∃ serve, Handler asciiLib (newGate ["localhost"] false false) "testHandler" = some serve ∧
        (∀ (h2 : String) (w2 : ResponseWriter) (r2 : Request),
          Effect.serveHTTP h2 w2 r2 ∉ serve (newRecorder "") (newRequest "GET" "" "")) ∧
        (∀ f, (newGate ["localhost"] false false).options.Failure = some f →
          serve (newRecorder "") (newRequest "GET" "" "") =
            [Effect.failure f (newRecorder "") (newRequest "GET" "" "")]) ∧
        ((newGate ["localhost"] false false).options.Failure = none →
          serve (newRecorder "") (newRequest "GET" "" "") =
            [Effect.writeHeader (newRecorder "") StatusForbidden]) :=
  ⟨by decide, by decide,
    handler_on_deny asciiLib (newGate ["localhost"] false false) "testHandler" (newRecorder "")
      (newRequest "GET" "" "") (by decide) (by decide)⟩

/-! ## Lemmas for the later properties -/

theorem Validate_of_effectiveOrigin {H : Type} (L : Lib) (c : CORSGate H) (w : ResponseWriter)
    (r : Request) (e : String) (he : effectiveOrigin L r = some e) :
    Validate L c w r = validateOrigin L c w e := by
  unfold effectiveOrigin at he
  unfold Validate
  by_cases h1 : ToLower L (r.Header.Get "origin") = ""
  · by_cases h2 : ToLower L (r.Header.Get "referer") = ""
    · simp [h1, h2] at he
    · cases hp : L.urlParse (ToLower L (r.Header.Get "referer")) with
      | none => simp [h1, h2, hp] at he
      | some url =>
        simp only [h1, h2, hp, ne_eq, not_false_eq_true, if_true, Option.some.injEq] at he
        simp [h1, h2, hp, he]
  · simp only [h1, if_false, Option.some.injEq] at he
    subst he
    simp [h1]

theorem validateOrigin_congr {H : Type} (L : Lib) (c1 c2 : CORSGate H) (w : ResponseWriter)
    (origin : String)
    (h : originLoop c1.options.Origin origin = originLoop c2.options.Origin origin) :
    validateOrigin L c1 w origin = validateOrigin L c2 w origin := by
  unfold validateOrigin
  rw [h]

theorem originLoop_perm (l1 l2 : List String) (origin : String) (hp : l1.Perm l2) :
    originLoop l1 origin = originLoop l2 origin := by
  have h : originLoop l1 origin = true ↔ originLoop l2 origin = true := by
    rw [originLoop_iff, originLoop_iff, hp.mem_iff, hp.mem_iff]
  cases h1 : originLoop l1 origin <;> cases h2 : originLoop l2 origin <;> simp_all

/-! ## C11: the handler on Allow -/

/-- C11: with a non-empty allow-list, `Handler` builds a handler, and for every request on
which `Validate` allows, that handler makes exactly one call: `ServeHTTP` of the protected
handler, on the same response writer and request.  It makes no call to the failure
callback, configured or not, and no `WriteHeader` call of its own. -/
theorem handler_on_allow {H : Type} (L : Lib) (c : CORSGate H) (h : H) (w : ResponseWriter)
    (r : Request) (hne : c.options.Origin ≠ []) (hallow : Validate L c w r = none) :
    ∃ serve, Handler L c h = some serve ∧
      serve w r = [Effect.serveHTTP h w r] ∧
      (∀ (f : H) (w2 : ResponseWriter) (r2 : Request), Effect.failure f w2 r2 ∉ serve w r) ∧
      (∀ (w2 : ResponseWriter) (statusCode : Nat),
        Effect.writeHeader w2 statusCode ∉ serve w r) := by
  have hlen : ¬ c.options.Origin.length < 1 := by
    cases hO : c.options.Origin with
    | nil => exact absurd hO hne
    | cons a t => simp
  refine ⟨handlerFunc L c h, by simp only [Handler, hlen, if_false], ?_, ?_, ?_⟩
  · simp [handlerFunc, hallow]
  · intro f w2 r2
    simp [handlerFunc, hallow]
  · intro w2 statusCode
    simp [handlerFunc, hallow]

/-- C11 at the request of `TestFailureShouldNotBeInvokedForSameOriginRequests`: a failure
callback is configured, a GET with Origin `localhost` is allowed, and the handler's only
call is `ServeHTTP` of the protected handler. -/
theorem handler_on_allow_witness :
    (newGateWithFailure ["localhost"] "failure").options.Origin ≠ [] ∧
      Validate asciiLib (newGateWithFailure ["localhost"] "failure") (newRecorder "")
        (newRequest "GET" "localhost" "") = none ∧
      ∃ serve, Handler asciiLib (newGateWithFailure ["localhost"] "failure") "testHandler"
          = some serve ∧
        serve (newRecorder "") (newRequest "GET" "localhost" "") =
          [Effect.serveHTTP "testHandler" (newRecorder "") (newRequest "GET" "localhost" "")] ∧
        (∀ (f : String) (w2 : ResponseWriter) (r2 : Request),
          Effect.failure f w2 r2 ∉ serve (newRecorder "") (newRequest "GET" "localhost" "")) ∧
        (∀ (w2 : ResponseWriter) (statusCode : Nat),
          Effect.writeHeader w2 statusCode ∉
            serve (newRecorder "") (newRequest "GET" "localhost" "")) :=
  ⟨by decide, by decide,
    handler_on_allow asciiLib (newGateWithFailure ["localhost"] "failure") "testHandler"
      (newRecorder "") (newRequest "GET" "localhost" "") (by decide) (by decide)⟩

/-! ## C12: an empty allow-list -/

/-- C12: for every configuration, `Handler` returns `nil` (no handler) if and only if the
configured allow-list has zero entries; with at least one entry it returns the handler
function, so no handler ever serves a request under an empty allow-list. -/
theorem handler_nil_iff_no_origin {H : Type} (L : Lib) (c : CORSGate H) (h : H) :
    Handler L c h = none ↔ c.options.Origin.length = 0 := by
  unfold Handler
  cases hO : c.options.Origin with
  | nil => simp
  | cons a t => simp

/-! ## C15: the no-signal branch is terminal -/

/-- C15: for every request with an empty Origin header and an empty Referer header, the
result of `Validate` is the same for any two allow-lists and any two existing
Access-Control-Allow-Origin values, the other inputs (method, allow_safe, strict) being
equal. -/
theorem validate_no_signal_terminal {H : Type} (L : Lib) (c1 c2 : CORSGate H)
    (w1 w2 : ResponseWriter) (r : Request) (ho : r.Header.Get "origin" = "")
    (hr : r.Header.Get "referer" = "") (hsafe : c1.options.AllowSafe = c2.options.AllowSafe)
    (hstrict : c1.options.Strict = c2.options.Strict) :
    Validate L c1 w1 r = Validate L c2 w2 r := by
  rw [Validate_of_no_signal L c1 w1 r ho hr, Validate_of_no_signal L c2 w2 r ho hr, hsafe,
    hstrict]

/-- C15 on a safe GET with neither header: the allow-list `localhost` with no existing
header and the wildcard allow-list with a wildcard existing header give the same
result. -/
theorem validate_no_signal_terminal_witness :
    (newRequest "GET" "" "").Header.Get "origin" = "" ∧
      (newRequest "GET" "" "").Header.Get "referer" = "" ∧
      Validate asciiLib (newGate ["localhost"] false false) (newRecorder "")
          (newRequest "GET" "" "") =
        Validate asciiLib (newGate ["*"] false false) (newRecorder "*")
          (newRequest "GET" "" "") :=
  ⟨rfl, rfl,
    validate_no_signal_terminal asciiLib (newGate ["localhost"] false false)
      (newGate ["*"] false false) (newRecorder "") (newRecorder "*") (newRequest "GET" "" "")
      rfl rfl rfl rfl⟩

/-! ## C16: the order of the allow-list -/

/-- C16: for every request and any two allow-lists that are permutations of each other,
the other options being equal, `Validate` returns the same result, the reason of a denial
included. -/
theorem validate_perm_invariant {H : Type} (L : Lib) (c1 c2 : CORSGate H)
    (w : ResponseWriter) (r : Request)
    (hperm : c1.options.Origin.Perm c2.options.Origin)
    (hsafe : c1.options.AllowSafe = c2.options.AllowSafe)
    (hstrict : c1.options.Strict = c2.options.Strict) :
    Validate L c1 w r = Validate L c2 w r := by
  have hloop : ∀ origin, validateOrigin L c1 w origin = validateOrigin L c2 w origin :=
    fun origin => validateOrigin_congr L c1 c2 w origin (originLoop_perm _ _ origin hperm)
  unfold Validate
  simp only [hloop, hsafe, hstrict]

/-- C16 at the wildcard request of the tests: Origin `google.com` gets the same result
with the wildcard first, and with the wildcard last. -/
theorem validate_perm_invariant_witness :
    (newGate ["*", "localhost", "example.com"] false false).options.Origin.Perm
        (newGate ["localhost", "example.com", "*"] false false).options.Origin ∧
      Validate asciiLib (newGate ["*", "localhost", "example.com"] false false)
          (newRecorder "") (newRequest "GET" "google.com" "") =
        Validate asciiLib (newGate ["localhost", "example.com", "*"] false false)
          (newRecorder "") (newRequest "GET" "google.com" "") :=
  ⟨by decide,
    validate_perm_invariant asciiLib (newGate ["*", "localhost", "example.com"] false false)
      (newGate ["localhost", "example.com", "*"] false false) (newRecorder "")
      (newRequest "GET" "google.com" "") (by decide) rfl rfl⟩

/-! ## C13: the reasons of a denial -/

/-- C13, as stated, fails: the reason `Validate` returns when the Referer fallback fails to
parse is not "referer header unparsable", and the reason it returns when both headers are
empty is not "no safe origin signal"; the code has its own wording for both. -/
theorem validate_reasons_differ_from_spec :
    (Validate asciiLib (newGate ["localhost"] false false) (newRecorder "")
          (newRequest "GET" "" "://x") =
        some "tried to fallback to referer header but could not parse it" ∧
      "tried to fallback to referer header but could not parse it" ≠
        "referer header unparsable") ∧
    (Validate asciiLib (newGate ["localhost"] false false) (newRecorder "")
          (newRequest "GET" "" "") =
        some "CORS validation failed. Supplied origin isn't safe and strict mode is enabled." ∧
      "CORS validation failed. Supplied origin isn't safe and strict mode is enabled." ≠
        "no safe origin signal") := by
  decide

/-- C13, amended: for every input on which `Validate` denies, the reason is one of three:
exactly "tried to fallback to referer header but could not parse it" when the Referer
fallback fails to parse, exactly "CORS validation failed. Supplied origin isn't safe and
strict mode is enabled." when both Origin and Referer are empty, and otherwise the
effective origin value (the lowercased Origin, or the host of the parsed Referer) followed
by " is not an allowed origin". -/
theorem validate_reason_cases {H : Type} (L : Lib) (c : CORSGate H) (w : ResponseWriter)
    (r : Request) (reason : String) (hdeny : Validate L c w r = some reason) :
    (r.Header.Get "origin" = "" ∧ r.Header.Get "referer" ≠ "" ∧
        L.urlParse (ToLower L (r.Header.Get "referer")) = none ∧
        reason = "tried to fallback to referer header but could not parse it") ∨
      (r.Header.Get "origin" = "" ∧ r.Header.Get "referer" = "" ∧
        reason =
          "CORS validation failed. Supplied origin isn't safe and strict mode is enabled.") ∨
      (r.Header.Get "origin" ≠ "" ∧
        reason = ToLower L (r.Header.Get "origin") ++ " is not an allowed origin") ∨
      (r.Header.Get "origin" = "" ∧ r.Header.Get "referer" ≠ "" ∧
        ∃ url, L.urlParse (ToLower L (r.Header.Get "referer")) = some url ∧
          reason = url.Host ++ " is not an allowed origin") := by
  have hvo : ∀ origin, validateOrigin L c w origin = some reason →
      reason = origin ++ " is not an allowed origin" := by
    intro origin h
    unfold validateOrigin at h
    simp only [] at h
    split at h
    · exact absurd h (by simp)
    · split at h
      · split at h
        · exact absurd h (by simp)
        · exact (Option.some.inj h).symm
      · exact (Option.some.inj h).symm
  by_cases ho : r.Header.Get "origin" = ""
  · by_cases hr : r.Header.Get "referer" = ""
    · rw [Validate_of_no_signal L c w r ho hr] at hdeny
      split at hdeny
      · exact Or.inr (Or.inl ⟨ho, hr, (Option.some.inj hdeny).symm⟩)
      · exact absurd hdeny (by simp)
    · rw [Validate_of_referer L c w r ho hr] at hdeny
      cases hp : L.urlParse (ToLower L (r.Header.Get "referer")) with
      | none =>
        rw [hp] at hdeny
        exact Or.inl ⟨ho, hr, rfl, (Option.some.inj hdeny).symm⟩
      | some url =>
        rw [hp] at hdeny
        exact Or.inr (Or.inr (Or.inr ⟨ho, hr, url, rfl, hvo _ hdeny⟩))
  · rw [Validate_of_origin L c w r ho] at hdeny
    exact Or.inr (Or.inr (Or.inl ⟨ho, hvo _ hdeny⟩))

/-- C13 amended, at the request of `TestRejectRequestsFromOtherOrigins`: the denial of
Origin `google.com` carries the reason "google.com is not an allowed origin", the third of
the listed cases. -/
theorem validate_reason_cases_witness :
    Validate asciiLib (newGate ["localhost"] false false) (newRecorder "")
        (newRequest "GET" "google.com" "") = some "google.com is not an allowed origin" ∧
      (((newRequest "GET" "google.com" "").Header.Get "origin" = "" ∧
          (newRequest "GET" "google.com" "").Header.Get "referer" ≠ "" ∧
          asciiLib.urlParse
            (ToLower asciiLib ((newRequest "GET" "google.com" "").Header.Get "referer")) = none ∧
          "google.com is not an allowed origin" =
            "tried to fallback to referer header but could not parse it") ∨
        ((newRequest "GET" "google.com" "").Header.Get "origin" = "" ∧
          (newRequest "GET" "google.com" "").Header.Get "referer" = "" ∧
          "google.com is not an allowed origin" =
            "CORS validation failed. Supplied origin isn't safe and strict mode is enabled.") ∨
        ((newRequest "GET" "google.com" "").Header.Get "origin" ≠ "" ∧
          "google.com is not an allowed origin" =
            ToLower asciiLib ((newRequest "GET" "google.com" "").Header.Get "origin") ++
              " is not an allowed origin") ∨
        ((newRequest "GET" "google.com" "").Header.Get "origin" = "" ∧
          (newRequest "GET" "google.com" "").Header.Get "referer" ≠ "" ∧
          ∃ url, asciiLib.urlParse
              (ToLower asciiLib ((newRequest "GET" "google.com" "").Header.Get "referer")) =
                some url ∧
            "google.com is not an allowed origin" = url.Host ++ " is not an allowed origin")) :=
  ⟨by decide,
    validate_reason_cases asciiLib (newGate ["localhost"] false false) (newRecorder "")
      (newRequest "GET" "google.com" "") "google.com is not an allowed origin" (by decide)⟩

/-! ## C14: deference to a header set upstream -/

/-- C14, as stated, fails, on the two requests of C1.  With no Origin and the Referer
`/mypage.html` the effective origin is empty, it equals no entry of the allow-list
`localhost`, and the absent existing header, stripped and lowercased, equals it; with
Origin `google.com` the existing header made of a tab and `*` is the wildcard once its
whitespace is stripped.  `Validate` denies both. -/
theorem validate_denies_where_spec_defers :
    (effectiveOrigin asciiLib (newRequest "GET" "" "/mypage.html") = some "" ∧
        "" ∉ (newGate ["localhost"] false false).options.Origin ∧
        "*" ∉ (newGate ["localhost"] false false).options.Origin ∧
        specDeference asciiLib ((newRecorder "").Header.Get "access-control-allow-origin") ""
          = true ∧
        Validate asciiLib (newGate ["localhost"] false false) (newRecorder "")
          (newRequest "GET" "" "/mypage.html") = some " is not an allowed origin") ∧
      (effectiveOrigin asciiLib (newRequest "GET" "google.com" "") = some "google.com" ∧
        "google.com" ∉ (newGate ["localhost"] false false).options.Origin ∧
        "*" ∉ (newGate ["localhost"] false false).options.Origin ∧
        specDeference asciiLib ((newRecorder "\t*").Header.Get "access-control-allow-origin")
          "google.com" = true ∧
        Validate asciiLib (newGate ["localhost"] false false) (newRecorder "\t*")
          (newRequest "GET" "google.com" "") = some "google.com is not an allowed origin") := by
  decide

/-- C14, amended: for every request that yields an effective origin value (from Origin, or
from a parsed Referer) which equals no allow-list entry, with no wildcard entry in the
allow-list, `Validate` allows if and only if the existing Access-Control-Allow-Origin
value is not empty and, after removing its space characters and lowercasing it, equals the
wildcard or equals the effective origin value exactly. -/
theorem validate_unlisted_iff_deference {H : Type} (L : Lib) (c : CORSGate H)
    (w : ResponseWriter) (r : Request) (e : String) (he : effectiveOrigin L r = some e)
    (hmem : e ∉ c.options.Origin) (hstar : "*" ∉ c.options.Origin) :
    Validate L c w r = none ↔
      w.Header.Get "access-control-allow-origin" ≠ "" ∧
        (ToLower L (removeSpaces (w.Header.Get "access-control-allow-origin")) = "*" ∨
          ToLower L (removeSpaces (w.Header.Get "access-control-allow-origin")) = e) := by
  have hloop : ¬ originLoop c.options.Origin e = true := by
    rw [originLoop_iff]
    rintro (h | h)
    · exact hmem h
    · exact hstar h
  rw [Validate_of_effectiveOrigin L c w r e he, validateOrigin_eq_none_iff]
  constructor
  · rintro (h | ⟨h1, h2⟩)
    · exact absurd h hloop
    · exact ⟨h1, h2.imp id Eq.symm⟩
  · rintro ⟨h1, h2⟩
    exact Or.inr ⟨h1, h2.imp id Eq.symm⟩

/-- C14 amended, on Origin `google.com` with the allow-list `localhost` and the existing
header `Google.COM` followed by a space: the header normalises to the origin and the
request is allowed. -/
theorem validate_unlisted_iff_deference_witness :
    effectiveOrigin asciiLib (newRequest "POST" "google.com" "") = some "google.com" ∧
      "google.com" ∉ (newGate ["localhost"] false false).options.Origin ∧
      "*" ∉ (newGate ["localhost"] false false).options.Origin ∧
      Validate asciiLib (newGate ["localhost"] false false) (newRecorder "Google.COM ")
        (newRequest "POST" "google.com" "") = none :=
  ⟨by decide, by decide, by decide,
    (validate_unlisted_iff_deference asciiLib (newGate ["localhost"] false false)
      (newRecorder "Google.COM ") (newRequest "POST" "google.com" "") "google.com" (by decide)
      (by decide) (by decide)).2 ⟨by decide, Or.inr (by decide)⟩⟩

/-! ## C17: the two denial categories -/

theorem not_allowed_reason_ne_parse_reason (e : String) :
    e ++ " is not an allowed origin" ≠
      "tried to fallback to referer header but could not parse it" := by
  intro h
  have h2 := congrArg (fun s : String => s.data.getLast?) h
  simp at h2

/-- C17, as stated, fails: the Referer made of U+212A KELVIN SIGN followed by
`ttp://google.com/` does not parse as a URL, and the reason `Validate` returns for it is
"google.com is not an allowed origin", because the lowercased header parses; that is also
the reason it returns for the policy rejection of the Origin `google.com`.  Same cause as
for C8. -/
theorem unparseable_referer_reason_shared :
    kelvinLib.urlParse ((newRequest "GET" "" "\u212Attp://google.com/").Header.Get "referer")
        = none ∧
      Validate kelvinLib (newGate ["localhost"] false false) (newRecorder "")
        (newRequest "GET" "" "\u212Attp://google.com/") =
          some "google.com is not an allowed origin" ∧
      effectiveOrigin kelvinLib (newRequest "GET" "google.com" "") = some "google.com" ∧
      Validate kelvinLib (newGate ["localhost"] false false) (newRecorder "")
        (newRequest "GET" "google.com" "") = some "google.com is not an allowed origin" := by
  decide

/-- C17, amended: the reason `Validate` returns when the lowercased Referer fails to parse
is different from every reason it returns for a policy rejection, that is for a request
with no origin signal, or with an effective origin of any value that fails the allow-list
and existing-header checks. -/
theorem parse_failure_reason_distinct {H : Type} (L : Lib) (c1 c2 : CORSGate H)
    (w1 w2 : ResponseWriter) (r1 r2 : Request) (reason2 : String)
    (ho : r1.Header.Get "origin" = "") (hr : r1.Header.Get "referer" ≠ "")
    (hp : L.urlParse (ToLower L (r1.Header.Get "referer")) = none)
    (hpolicy : (r2.Header.Get "origin" = "" ∧ r2.Header.Get "referer" = "") ∨
      ∃ e, effectiveOrigin L r2 = some e)
    (hdeny : Validate L c2 w2 r2 = some reason2) :
    Validate L c1 w1 r1 = some "tried to fallback to referer header but could not parse it" ∧
      reason2 ≠ "tried to fallback to referer header but could not parse it" := by
  refine ⟨by rw [Validate_of_referer L c1 w1 r1 ho hr, hp], ?_⟩
  rcases hpolicy with ⟨ho2, hr2⟩ | ⟨e, he⟩
  · rw [Validate_of_no_signal L c2 w2 r2 ho2 hr2] at hdeny
    split at hdeny
    · rw [← Option.some.inj hdeny]
      decide
    · exact absurd hdeny (by simp)
  · rw [Validate_of_effectiveOrigin L c2 w2 r2 e he] at hdeny
    unfold validateOrigin at hdeny
    simp only [] at hdeny
    split at hdeny
    · exact absurd hdeny (by simp)
    · split at hdeny
      · split at hdeny
        · exact absurd hdeny (by simp)
        · rw [← Option.some.inj hdeny]
          exact not_allowed_reason_ne_parse_reason e
      · rw [← Option.some.inj hdeny]
        exact not_allowed_reason_ne_parse_reason e

/-- C17 amended, on the Referer `://x`, which is refused, and the Origin `google.com`,
which is rejected by the allow-list `localhost`: the two reasons differ. -/
theorem parse_failure_reason_distinct_witness :
    (newRequest "GET" "" "://x").Header.Get "origin" = "" ∧
      (newRequest "GET" "" "://x").Header.Get "referer" ≠ "" ∧
      asciiLib.urlParse (ToLower asciiLib ((newRequest "GET" "" "://x").Header.Get "referer"))
        = none ∧
      effectiveOrigin asciiLib (newRequest "GET" "google.com" "") = some "google.com" ∧
      Validate asciiLib (newGate ["localhost"] false false) (newRecorder "")
        (newRequest "GET" "google.com" "") = some "google.com is not an allowed origin" ∧
      Validate asciiLib (newGate ["localhost"] false false) (newRecorder "")
          (newRequest "GET" "" "://x") =
        some "tried to fallback to referer header but could not parse it" ∧
      "google.com is not an allowed origin" ≠
        "tried to fallback to referer header but could not parse it" :=
  ⟨by decide, by decide, by decide, by decide, by decide,
    parse_failure_reason_distinct asciiLib (newGate ["localhost"] false false)
      (newGate ["localhost"] false false) (newRecorder "") (newRecorder "")
      (newRequest "GET" "" "://x") (newRequest "GET" "google.com" "")
      "google.com is not an allowed origin" (by decide) (by decide) (by decide)
      (Or.inr ⟨"google.com", by decide⟩) (by decide)⟩

/-! ## C18: the Origin header is read through its lowercased form -/

theorem lowerRune_idem (L : Lib)
    (hL : ∀ ch : Char, 127 < ch.toNat → lowerRune L (L.unicodeLower ch) = L.unicodeLower ch)
    (ch : Char) : lowerRune L (lowerRune L ch) = lowerRune L ch := by
  have hshift : ∀ n : Nat, 65 ≤ n → n ≤ 90 → (Char.ofNat (n + 32)).toNat = n + 32 := by
    intro n h1 h2
    interval_cases n <;> rfl
  by_cases h1 : ch.toNat ≤ 127
  · by_cases h2 : 65 ≤ ch.toNat ∧ ch.toNat ≤ 90
    · have h3 : lowerRune L ch = Char.ofNat (ch.toNat + 32) := by
        simp only [lowerRune, h1, h2, if_true, and_self]
      have h4 := hshift ch.toNat h2.1 h2.2
      rw [h3]
      have h5 : (Char.ofNat (ch.toNat + 32)).toNat ≤ 127 := by omega
      have h6 : ¬ (65 ≤ (Char.ofNat (ch.toNat + 32)).toNat ∧
          (Char.ofNat (ch.toNat + 32)).toNat ≤ 90) := by omega
      simp only [lowerRune, h5, h6, if_true, if_false]
    · have h3 : lowerRune L ch = ch := by
        simp only [lowerRune, h1, h2, if_true, if_false]
      rw [h3, h3]
  · have h3 : lowerRune L ch = L.unicodeLower ch := by
      simp only [lowerRune, h1, if_false]
    rw [h3]
    exact hL ch (by omega)

theorem ToLower_idem (L : Lib)
    (hL : ∀ ch : Char, 127 < ch.toNat → lowerRune L (L.unicodeLower ch) = L.unicodeLower ch)
    (s : String) : ToLower L (ToLower L s) = ToLower L s := by
  unfold ToLower
  simp only [List.map_map]
  congr 1
  apply List.map_congr_left
  intro ch _
  exact lowerRune_idem L hL ch

/-- C18: for every request, replacing the Origin header value by its lowercase leaves the
result of `Validate` unchanged, the reason of a denial included.  The case table of
`unicode.ToLower` for the runes above `MaxASCII`, which is outside the repository, is
taken to return runes that `unicode.ToLower` leaves as they are, as the Unicode table
does. -/
theorem validate_lowercased_origin {H : Type} (L : Lib) (c : CORSGate H) (w : ResponseWriter)
    (r1 r2 : Request)
    (hL : ∀ ch : Char, 127 < ch.toNat → lowerRune L (L.unicodeLower ch) = L.unicodeLower ch)
    (hm : r2.Method = r1.Method)
    (ho : r2.Header.Get "origin" = ToLower L (r1.Header.Get "origin"))
    (hh : ∀ key, key ≠ "origin" → r2.Header.Get key = r1.Header.Get key) :
    Validate L c w r2 = Validate L c w r1 := by
  have href : r2.Header.Get "referer" = r1.Header.Get "referer" := hh "referer" (by decide)
  unfold Validate
  simp only [ho, href, hm, ToLower_idem L hL]

/-- C18 at the request of `TestAllowSameOriginRequests`: the Origin `LocalHost` and its
lowercase `localhost` get the same result. -/
theorem validate_lowercased_origin_witness :
    (∀ ch : Char, 127 < ch.toNat →
        lowerRune asciiLib (asciiLib.unicodeLower ch) = asciiLib.unicodeLower ch) ∧
      (newRequest "GET" "localhost" "").Header.Get "origin" =
        ToLower asciiLib ((newRequest "GET" "LocalHost" "").Header.Get "origin") ∧
      Validate asciiLib (newGate ["localhost"] false false) (newRecorder "")
          (newRequest "GET" "localhost" "") =
        Validate asciiLib (newGate ["localhost"] false false) (newRecorder "")
          (newRequest "GET" "LocalHost" "") :=
  ⟨fun ch hch => by simp [lowerRune, asciiLib, Nat.not_le.2 hch], by decide,
    validate_lowercased_origin asciiLib (newGate ["localhost"] false false) (newRecorder "")
      (newRequest "GET" "LocalHost" "") (newRequest "GET" "localhost" "")
      (fun ch hch => by simp [lowerRune, asciiLib, Nat.not_le.2 hch]) rfl (by decide)
      (fun key hk => by simp [newRequest, hk])⟩

/-! ## C19: an empty effective origin -/

/-- C19, as stated, fails: with no Origin and the Referer `/mypage.html`, whose host is
empty, an allow-list holding neither the wildcard nor the empty string, and an existing
header made of one space, which normalises to the empty string and not to the wildcard,
`Validate` allows: the header is not empty when the guard looks at it, and once its spaces
are removed it equals the empty origin. -/
theorem validate_allows_empty_effective_origin :
    (newRequest "POST" "" "/mypage.html").Header.Get "origin" = "" ∧
      (newRequest "POST" "" "/mypage.html").Header.Get "referer" ≠ "" ∧
      asciiLib.urlParse (ToLower asciiLib
        ((newRequest "POST" "" "/mypage.html").Header.Get "referer")) = some { Host := "" } ∧
      "*" ∉ (newGate ["localhost"] false false).options.Origin ∧
      "" ∉ (newGate ["localhost"] false false).options.Origin ∧
      ToLower asciiLib (removeSpaces ((newRecorder " ").Header.Get
        "access-control-allow-origin")) ≠ "*" ∧
      Validate asciiLib (newGate ["localhost"] false false) (newRecorder " ")
        (newRequest "POST" "" "/mypage.html") = none := by
  decide

/-- C19, amended: for every request with an empty Origin header and a non-empty Referer
header that parses (lowercased, as the gate reads it) to a URL with an empty host, every
allow-list containing neither the wildcard nor the empty string, and every existing
Access-Control-Allow-Origin value that is empty, or that, with its space characters
removed and lowercased, is neither the wildcard nor the empty string, `Validate`
denies. -/
theorem validate_denies_empty_effective_origin {H : Type} (L : Lib) (c : CORSGate H)
    (w : ResponseWriter) (r : Request) (url : URL) (ho : r.Header.Get "origin" = "")
    (hr : r.Header.Get "referer" ≠ "")
    (hp : L.urlParse (ToLower L (r.Header.Get "referer")) = some url)
    (hhost : url.Host = "") (hstar : "*" ∉ c.options.Origin) (hempty : "" ∉ c.options.Origin)
    (hcur : w.Header.Get "access-control-allow-origin" = "" ∨
      (ToLower L (removeSpaces (w.Header.Get "access-control-allow-origin")) ≠ "*" ∧
        ToLower L (removeSpaces (w.Header.Get "access-control-allow-origin")) ≠ "")) :
    Validate L c w r ≠ none := by
  rw [Validate_of_referer L c w r ho hr, hp]
  simp only [hhost]
  intro h
  rcases (validateOrigin_eq_none_iff L c w "").1 h with h1 | ⟨h1, h2⟩
  · rcases (originLoop_iff _ _).1 h1 with h3 | h3
    · exact hempty h3
    · exact hstar h3
  · rcases hcur with h4 | ⟨h4, h5⟩
    · exact h1 h4
    · rcases h2 with h6 | h6
      · exact h4 h6
      · exact h5 h6.symm

/-- C19 amended, on a safe GET with the Referer `/mypage.html`, allow_safe on and no
existing header: the request is denied. -/
theorem validate_denies_empty_effective_origin_witness :
    (newRequest "GET" "" "/mypage.html").Header.Get "origin" = "" ∧
      (newRequest "GET" "" "/mypage.html").Header.Get "referer" ≠ "" ∧
      asciiLib.urlParse (ToLower asciiLib
        ((newRequest "GET" "" "/mypage.html").Header.Get "referer")) = some { Host := "" } ∧
      "*" ∉ (newGate ["localhost"] true false).options.Origin ∧
      "" ∉ (newGate ["localhost"] true false).options.Origin ∧
      (newRecorder "").Header.Get "access-control-allow-origin" = "" ∧
      Validate asciiLib (newGate ["localhost"] true false) (newRecorder "")
        (newRequest "GET" "" "/mypage.html") ≠ none :=
  ⟨by decide, by decide, by decide, by decide, by decide, by decide,
    validate_denies_empty_effective_origin asciiLib (newGate ["localhost"] true false)
      (newRecorder "") (newRequest "GET" "" "/mypage.html") { Host := "" } (by decide)
      (by decide) (by decide) rfl (by decide) (by decide) (Or.inl (by decide))⟩

end Corsgate
